import Mathlib

/-!
Verification development for the validation engine and account-registration
workflow of the slenderaac repository. The TypeScript sources are embedded
shallowly: JavaScript strings become lists of characters, the form payload
becomes an association list, asynchronous validators become pure functions
returning an optional message, and the persistence substrate becomes explicit
state passed to the registration action together with a trace of the
persistence operations it performs.
-/

/-- Converts a string literal to its character list, the carrier type used for
all embedded JavaScript strings. -/
def str (s : String) : List Char := s.data

/-- The apostrophe character, U+0027. -/
def apostrophe : Char := Char.ofNat 39

/-- Matches the regular-expression class `[A-Z]`. -/
def jsUpperAZ (c : Char) : Bool := 'A' ≤ c && c ≤ 'Z'

/-- Matches the regular-expression class `\w` on the ASCII range. -/
def jsWordChar (c : Char) : Bool := c.isAlpha || c.isDigit || c == '_'

/-- Matches the JavaScript whitespace class `\s` on the characters that occur
in this development (ASCII whitespace plus no-break space). -/
def jsWhitespace (c : Char) : Bool :=
  c == ' ' || c.val == 9 || c.val == 10 || c.val == 11 || c.val == 12 ||
    c.val == 13 || c.val == 160

/-- Embeds the first regex pass of toProperCase from the utilities module:
`replace(/([A-Z])/g, (c) => ` + backtick-space + `${c.toLowerCase()})` turns
every capital letter into a space followed by its lower-case form. -/
def properExpand : List Char → List Char
  | [] => []
  | c :: cs => (if jsUpperAZ c then [' ', c.toLower] else [c]) ++ properExpand cs

/-- Embeds the second regex pass of toProperCase: `replace(/^./, toUpperCase)`
upper-cases the first character when one exists; the regex dot does not match
line terminators. -/
def upperFirst : List Char → List Char
  | [] => []
  | c :: cs =>
    if c.val == 10 || c.val == 13 || c.val == 8232 || c.val == 8233 then c :: cs
    else c.toUpper :: cs

/-- Embeds toProperCase from the utilities module: it inserts a space before
each capital letter, lower-cases the letter, and upper-cases the first
character of the result. -/
def toProperCase (s : List Char) : List Char := upperFirst (properExpand s)

/-- Left-to-right scan embedding the global regex replacement
`replace(/\w\S*/g, (w) => w.replace(/^\w/, (c) => c.toUpperCase()))`. The
Boolean state records whether the scan is inside the `\S*` tail of a match:
a word character met outside a match starts a match and is upper-cased, the
following non-whitespace characters belong to the match and are copied, and
whitespace ends the match. -/
def toTitleCaseGo : Bool → List Char → List Char
  | _, [] => []
  | false, c :: cs =>
    if jsWordChar c then c.toUpper :: toTitleCaseGo true cs
    else c :: toTitleCaseGo false cs
  | true, c :: cs =>
    if jsWhitespace c then c :: toTitleCaseGo false cs
    else c :: toTitleCaseGo true cs

/-- Embeds toTitleCase from the utilities module: the first word character of
every maximal non-whitespace run that starts at a word character is
upper-cased and every other character is left unchanged. -/
def toTitleCase (s : List Char) : List Char := toTitleCaseGo false s

/-- Embeds the JavaScript String.prototype.trim call used by the
character-name validator. -/
def jsTrim (s : List Char) : List Char :=
  ((s.dropWhile jsWhitespace).reverse.dropWhile jsWhitespace).reverse

/-- Embeds `String.prototype.replace(pat, rep)` with a plain string pattern:
only the first occurrence of the pattern is replaced. An empty pattern
matches at the start of the string. -/
def replaceFirst (pat rep : List Char) : List Char → List Char
  | [] => if pat.isEmpty then rep else []
  | c :: cs =>
    if pat.isPrefixOf (c :: cs) then rep ++ (c :: cs).drop pat.length
    else c :: replaceFirst pat rep cs

/-- Embeds `String.prototype.includes(needle)`: the needle occurs as a
contiguous substring. -/
def jsIncludes (needle : List Char) : List Char → Bool
  | [] => needle.isEmpty
  | c :: cs => needle.isPrefixOf (c :: cs) || jsIncludes needle cs

/-- Decides the email regex `/^[^@]+@[^@]+\.[^@]+$/`: exactly one at-sign,
a non-empty local part before it, and a dot at an interior position of the
domain part. -/
def emailShape (s : List Char) : Bool :=
  (s.count '@' == 1) &&
  (!(s.takeWhile (fun c => !(c == '@'))).isEmpty &&
    ((((s.dropWhile (fun c => !(c == '@'))).drop 1).drop 1).dropLast.contains '.'))

/-- Decides the character-set regex `/^[a-z- ']+$/` applied by the
character-name validator to the lower-cased value. -/
def nameCharsetOk (s : List Char) : Bool :=
  !s.isEmpty &&
    s.all (fun c => ('a' ≤ c && c ≤ 'z') || c == '-' || c == ' ' || c == apostrophe)

/-- A value stored in the submitted form payload: FormData entries are either
strings or file objects. A missing entry is represented by the surrounding
Option. -/
inductive FormValue where
  | vstr : List Char → FormValue
  | vfile : FormValue
deriving DecidableEq

/-- The submitted form payload, keyed by field name. -/
abbrev FormData := List (List Char × FormValue)

/-- Embeds FormData.prototype.get: the first entry for the key, or null. -/
def dataGet (data : FormData) (key : List Char) : Option FormValue :=
  (data.find? (fun p => p.1 == key)).map Prod.snd

/-- JavaScript falsiness of a form value: null and the empty string are
falsy, non-empty strings and file objects are truthy. -/
def jsFalsy : Option FormValue → Bool
  | none => true
  | some (.vstr s) => s.isEmpty
  | some .vfile => false

/-- Embeds the strict inequality `value !== password` between two form
values. Two file objects are distinct heap references, so a file compares
unequal to everything. -/
def formValueNeq : Option FormValue → Option FormValue → Bool
  | some .vfile, _ => true
  | _, some .vfile => true
  | a, b => decide (a ≠ b)

/-- The locale lookup used to render validator messages. The message catalog
is outside the repository, so a lookup is any function from keys to rendered
strings; interpolation parameters such as the numeric length bounds do not
distinguish any message studied here and are folded into the key. -/
abbrev Tr := List Char → List Char

/-- A validator primitive: from the raw field value to an optional message. -/
abbrev Validator := Option FormValue → Option (List Char)

/-- A validation rule set: field names each with an ordered validator list. -/
abbrev ValidationRules := List (List Char × List Validator)

/-- The error report produced by the validation engine. -/
abbrev ErrorReport := List (List Char × List (List Char))

/-- The reserved template token substituted by the validation engine. -/
def fieldToken : List Char := str ":field"

/-- The per-field inner loop of the validation engine: every validator of the
field runs on the raw value, a truthy (non-null, non-empty) message has the
first occurrence of the reserved token replaced by the proper-cased field
name and is appended, and falsy results are skipped. -/
def runValidators (vs : List Validator) (value : Option FormValue)
    (key : List Char) : List (List Char) :=
  vs.filterMap (fun v =>
    match v value with
    | some e => if e = [] then none else some (replaceFirst fieldToken (toProperCase key) e)
    | none => none)

/-- Embeds the validate function of the validation module: every field of the
rule set is processed in order, and a field appears in the report exactly when
it accumulated at least one message. -/
def validate (rules : ValidationRules) (data : FormData) : ErrorReport :=
  rules.filterMap (fun r =>
    if runValidators r.2 (dataGet data r.1) r.1 = [] then none
    else some (r.1, runValidators r.2 (dataGet data r.1) r.1))

/-- Embeds presenceValidator: a falsy value yields the required message. -/
def presenceValidator (tr : Tr) : Validator := fun v =>
  if jsFalsy v then some (tr (str "validations.required")) else none

/-- Embeds stringValidator: a truthy non-string value yields the string-type
message. -/
def stringValidator (tr : Tr) : Validator := fun v =>
  match v with
  | some .vfile => some (tr (str "validations.string"))
  | _ => none

/-- Embeds emailValidator: non-strings yield the string-type message and
strings failing the email regex yield the email message. -/
def emailValidator (tr : Tr) : Validator := fun v =>
  match v with
  | some (.vstr s) =>
    if emailShape s then none else some (tr (str "validations.email"))
  | _ => some (tr (str "validations.string"))

/-- The BLOCKD_PREFIXES constant of the validation module. -/
def BLOCKD_PREFIXES : List (List Char) :=
  [str "gm", str "dm", str "god", str "cm", str "tutor", str "senior",
   [apostrophe], str "-"]

/-- The BLOCKED_WORDS constant of the validation module; the final entry is
the lower-cased public title taken from the environment. -/
def BLOCKED_WORDS (publicTitle : List Char) : List (List Char) :=
  [str "admin", str "administrator", str "gamemaster", str "game master",
   str "game-master", str "game" ++ [apostrophe] ++ str "master", str "--",
   [apostrophe, apostrophe], [apostrophe, ' '], [' ', apostrophe], str "- ",
   str " -", ['-', apostrophe], [apostrophe, '-'],
   publicTitle.map Char.toLower]

/-- Embeds characterNameValidator: the steps run in source order and the
first failing step returns its message. The monster lookup of the final step
is the external count collaborator, passed in as a function. -/
def characterNameValidator (tr : Tr) (monsterCount : List Char → Nat)
    (publicTitle : List Char) : Validator := fun value =>
  match value with
  | some (.vstr v) =>
    if v.length < 3 then some (tr (str "validations.min-length"))
    else if v.length > 20 then some (tr (str "validations.max-length"))
    else if !(toTitleCase v == v) then some (tr (str "validations.title-case"))
    else if BLOCKD_PREFIXES.any (fun p => p.isPrefixOf (v.map Char.toLower)) then
      some (tr (str "validations.blocked-words"))
    else if (BLOCKED_WORDS publicTitle).any (fun w => jsIncludes w (v.map Char.toLower)) then
      some (tr (str "validations.blocked-words"))
    else if !(jsTrim v == v) then some (tr (str "validations.blocked-words"))
    else if !(nameCharsetOk (v.map Char.toLower)) then some (tr (str "validations.name"))
    else if 0 < monsterCount v then some (tr (str "validations.name-monster"))
    else none
  | _ => some (tr (str "validations.string"))

/-- Modelled from the spec: the persistence substrate counts monster rows
whose name matches the queried name, and per the spec the monster-name
blocklist check is case-insensitive, so names are compared lower-cased. The
query itself lives in the database layer, outside the repository sources. -/
def countMonstersByName (monsters : List (List Char)) (name : List Char) : Nat :=
  (monsters.filter (fun m => m.map Char.toLower == name.map Char.toLower)).length

/-- The persistence substrate state visible to the registration action. -/
structure Db where
  accounts : List (List Char)
  players : List (List Char)
  monsters : List (List Char)

/-- The external collaborators consumed by the registration action: the sex
and pronoun parsers, the password hasher, the character-payload generator,
the current clock reading in milliseconds, the locale lookup, and the public
title from the environment. -/
structure RegDeps (σ π γ : Type) where
  parsePlayerSex : List Char → σ
  parsePlayerPronoun : Option FormValue → π
  hashPassword : List Char → List Char
  generateCharacterInput : List Char → π → σ → γ
  now : Nat
  tr : Tr
  publicTitle : List Char

/-- The payload of the atomic account creation: the stored email, the hashed
password, the createMany player rows each tagged with the is_main flag, and
the expiry timestamp of the email-verification row. -/
structure CreateAccountData (γ : Type) where
  email : List Char
  password : List Char
  players : List (γ × Bool)
  emailVerificationExpires : Nat

/-- A persistence operation performed by the registration action. -/
inductive DbOp where
  | findAccountByEmail : List Char → DbOp
  | findPlayerByName : List Char → DbOp
  | createAccount : DbOp
deriving DecidableEq

/-- The terminal outcome of one registration submission. -/
inductive RegOutcome (γ : Type) where
  | validationFailed : ErrorReport → RegOutcome γ
  | invariantViolation : RegOutcome γ
  | emailTaken : RegOutcome γ
  | nameTaken : RegOutcome γ
  | created : CreateAccountData γ → RegOutcome γ

/-- The mismatch message of the inline password-confirmation validator. -/
def pwMismatchMsg : List Char := str "Passwords do not match"

/-- The rule set built by the registration action, in source order; the
inline confirmation validator closes over the raw password value. -/
def regRules (tr : Tr) (monsterCount : List Char → Nat) (publicTitle : List Char)
    (password : Option FormValue) : ValidationRules :=
  [ (str "email", [presenceValidator tr, emailValidator tr]),
    (str "password", [presenceValidator tr, stringValidator tr]),
    (str "passwordConfirmation",
      [presenceValidator tr, stringValidator tr,
       fun value => if formValueNeq value password then some pwMismatchMsg else none]),
    (str "characterName",
      [presenceValidator tr, characterNameValidator tr monsterCount publicTitle]),
    (str "characterSex", [presenceValidator tr, stringValidator tr]) ]

/-- Embeds the default action of the registration route: validate, guard the
invariants, lower-case the email, pre-check email uniqueness, derive the
character payload, pre-check character-name uniqueness, and build the atomic
creation payload. The second component traces the persistence operations the
action performed; the substrate is assumed to answer the creation it was
asked for, so the defensive branch on a missing creation result is
unreachable in this model. -/
def registerAction {σ π γ : Type} (deps : RegDeps σ π γ) (db : Db)
    (data : FormData) : RegOutcome γ × List DbOp :=
  if validate (regRules deps.tr (countMonstersByName db.monsters) deps.publicTitle
      (dataGet data (str "password"))) data = [] then
    match dataGet data (str "email"), dataGet data (str "password"),
        dataGet data (str "characterName"), dataGet data (str "characterSex") with
    | some (.vstr e), some (.vstr p), some (.vstr n), some (.vstr sx) =>
      if e = [] ∨ p = [] ∨ n = [] ∨ sx = [] then (.invariantViolation, [])
      else if e.map Char.toLower ∈ db.accounts then
        (.emailTaken, [.findAccountByEmail (e.map Char.toLower)])
      else if n ∈ db.players then
        (.nameTaken, [.findAccountByEmail (e.map Char.toLower), .findPlayerByName n])
      else
        (.created
          { email := e.map Char.toLower
            password := deps.hashPassword p
            players := [(deps.generateCharacterInput n
              (deps.parsePlayerPronoun (dataGet data (str "characterPronouns")))
              (deps.parsePlayerSex sx), true)]
            emailVerificationExpires := deps.now + 1000 * 60 * 60 * 24 * 30 },
         [.findAccountByEmail (e.map Char.toLower), .findPlayerByName n,
          .createAccount])
    | _, _, _, _ => (.invariantViolation, [])
  else
    (.validationFailed (validate (regRules deps.tr (countMonstersByName db.monsters)
      deps.publicTitle (dataGet data (str "password"))) data), [])

/-- The capitalized-word transform as the spec words it: each word has its
first letter upper-cased and the rest of the word lower-cased. Stated for
comparison with the toTitleCase transform of the source, which leaves the
rest of each word unchanged. -/
def specTitleCaseGo : Bool → List Char → List Char
  | _, [] => []
  | false, c :: cs =>
    if jsWordChar c then c.toUpper :: specTitleCaseGo true cs
    else c :: specTitleCaseGo false cs
  | true, c :: cs =>
    if jsWhitespace c then c :: specTitleCaseGo false cs
    else c.toLower :: specTitleCaseGo true cs

/-- Capitalized-word form per the spec wording: the value equals its own
first-letter-upper, rest-lower transform. -/
def specCapitalizedWordForm (s : List Char) : Bool := specTitleCaseGo false s == s

/-- The conjunction of the local checks of the character-name policy, steps
two through eight: the guards of characterNameValidator before the monster
lookup, each negated. -/
def passesLocalNameChecks (publicTitle : List Char) (v : List Char) : Bool :=
  !(v.length < 3) && !(v.length > 20) && (toTitleCase v == v) &&
  !(BLOCKD_PREFIXES.any (fun p => p.isPrefixOf (v.map Char.toLower))) &&
  !((BLOCKED_WORDS publicTitle).any (fun w => jsIncludes w (v.map Char.toLower))) &&
  (jsTrim v == v) && nameCharsetOk (v.map Char.toLower)

/-- A concrete instantiation of the external collaborators, used to evaluate
the registration action on closed inputs. -/
def unitDeps : RegDeps Unit Unit Unit where
  parsePlayerSex := fun _ => ()
  parsePlayerPronoun := fun _ => ()
  hashPassword := id
  generateCharacterInput := fun _ _ _ => ()
  now := 0
  tr := id
  publicTitle := str "Zz"

example : toProperCase (str "characterName") = str "Character name" := by decide
example : toTitleCase (str "gamemaster") = str "Gamemaster" := by decide
example : toTitleCase (str "GAMEMASTER") = str "GAMEMASTER" := by decide
example : emailShape (str "User@Example.com") = true := by decide
example : emailShape (str "a@b") = false := by decide
example : replaceFirst fieldToken (str "Email") (str ":field and :field") =
    str "Email and :field" := by decide

/-- Keys pair with unique values in a rule set whose key list has no
duplicate entries. -/
theorem mem_keys_unique {α β : Type} {l : List (α × β)}
    (hnd : (l.map Prod.fst).Nodup) {k : α} {v w : β}
    (hv : (k, v) ∈ l) (hw : (k, w) ∈ l) : v = w := by
  induction l with
  | nil => cases hv
  | cons a t ih =>
    rw [List.map_cons, List.nodup_cons] at hnd
    rcases List.mem_cons.mp hv with hv1 | hv1 <;>
      rcases List.mem_cons.mp hw with hw1 | hw1
    · rw [← hv1] at hw1
      injection hw1 with h1 h2
      exact h2.symm
    · cases hv1
      exact absurd (List.mem_map_of_mem Prod.fst hw1) hnd.1
    · cases hw1
      exact absurd (List.mem_map_of_mem Prod.fst hv1) hnd.1
    · exact ih hnd.2 hv1 hw1

/-- An entry of the validate report is exactly a rule-set field whose
validator run produced a non-empty message list. -/
theorem mem_validate_iff {rules : ValidationRules} {data : FormData}
    {f : List Char} {msgs : List (List Char)} :
    (f, msgs) ∈ validate rules data ↔
      ∃ vs, (f, vs) ∈ rules ∧ msgs = runValidators vs (dataGet data f) f ∧
        msgs ≠ [] := by
  unfold validate
  rw [List.mem_filterMap]
  constructor
  · rintro ⟨⟨k, vs⟩, hmem, heq⟩
    dsimp only at heq
    by_cases h : runValidators vs (dataGet data k) k = []
    · rw [if_pos h] at heq
      cases heq
    · rw [if_neg h] at heq
      injection heq with heq
      injection heq with hk hm
      subst hk
      exact ⟨vs, hmem, hm.symm, hm ▸ h⟩
  · rintro ⟨vs, hmem, hm, hne⟩
    refine ⟨(f, vs), hmem, ?_⟩
    dsimp only
    rw [if_neg (by rw [← hm]; exact hne), ← hm]

/-- One entry of the inner validator loop contributes a message exactly when
the validator returned a truthy result: non-null and non-empty. -/
theorem validatorEntry_ne_none_iff (v : Validator) (value : Option FormValue)
    (key : List Char) :
    (match v value with
     | some e => if e = [] then none
                 else some (replaceFirst fieldToken (toProperCase key) e)
     | none => none) ≠ none ↔ (v value).getD [] ≠ [] := by
  rcases h : v value with _ | e
  · simp
  · by_cases he : e = [] <;> simp [he]

/-- The inner validator loop of a field yields a non-empty message list
exactly when some validator of the field returned a truthy message. -/
theorem runValidators_ne_nil_iff {vs : List Validator} {value : Option FormValue}
    {key : List Char} :
    runValidators vs value key ≠ [] ↔
      ∃ v ∈ vs, (v value).getD [] ≠ [] := by
  unfold runValidators
  rw [Ne, List.filterMap_eq_nil_iff]
  push_neg
  exact exists_congr fun v => and_congr_right fun _ =>
    validatorEntry_ne_none_iff v value key

/-- When the whole report is empty, every field of the rule set produced an
empty message list. -/
theorem validate_eq_nil_imp {rules : ValidationRules} {data : FormData}
    (h : validate rules data = []) {f : List Char} {vs : List Validator}
    (hmem : (f, vs) ∈ rules) : runValidators vs (dataGet data f) f = [] := by
  unfold validate at h
  rw [List.filterMap_eq_nil_iff] at h
  have h2 := h _ hmem
  dsimp only at h2
  by_cases hc : runValidators vs (dataGet data f) f = []
  · exact hc
  · rw [if_neg hc] at h2
    cases h2

/-- C1 counterexample: a validator returning the empty string returned a
non-null message, yet the report contains no key for the field, because the
engine tests the message for truthiness rather than merely for null. -/
theorem validate_empty_message_not_reported :
    validate [(str "f", [fun _ => some ([] : List Char)])] [] = [] ∧
      (fun (_ : Option FormValue) => some ([] : List Char)) (dataGet [] (str "f")) ≠
        none := by
  constructor
  · rfl
  · simp

/-- C1 (amended): for a rule set with pairwise distinct field names, the
report of validate contains a key for a field exactly when at least one of
the validators of that field returned a truthy message, that is, a non-null
and non-empty one, on the raw value of the field; and the messages listed
under the field are the substituted messages of its failing validators in
the order of the validator sequence, every configured validator having run
with no short-circuit within the field or across fields. -/
theorem validate_report_characterization
    (rules : ValidationRules) (data : FormData)
    (hnd : (rules.map Prod.fst).Nodup)
    (f : List Char) (vs : List Validator) (hmem : (f, vs) ∈ rules) :
    ((∃ msgs, (f, msgs) ∈ validate rules data) ↔
      ∃ v ∈ vs, (v (dataGet data f)).getD [] ≠ []) ∧
    (∀ msgs, (f, msgs) ∈ validate rules data →
      msgs = runValidators vs (dataGet data f) f) := by
  constructor
  · constructor
    · rintro ⟨msgs, hm⟩
      obtain ⟨ws, hws, heq, hne⟩ := mem_validate_iff.mp hm
      have hwv : ws = vs := mem_keys_unique hnd hws hmem
      subst hwv
      rw [heq] at hne
      exact runValidators_ne_nil_iff.mp hne
    · intro hex
      exact ⟨_, mem_validate_iff.mpr
        ⟨vs, hmem, rfl, runValidators_ne_nil_iff.mpr hex⟩⟩
  · intro msgs hm
    obtain ⟨ws, hws, heq, _⟩ := mem_validate_iff.mp hm
    have hwv : ws = vs := mem_keys_unique hnd hws hmem
    subst hwv
    exact heq

/-- Witness instantiating the C1 characterization at a one-field rule set
whose single validator always fails. -/
theorem validate_report_characterization_witness :
    ((∃ msgs, (str "f", msgs) ∈
        validate [(str "f", [fun _ => some (str "x")])] []) ↔
      ∃ v ∈ [fun (_ : Option FormValue) => some (str "x")],
        (v (dataGet [] (str "f"))).getD [] ≠ []) ∧
    (∀ msgs, (str "f", msgs) ∈ validate [(str "f", [fun _ => some (str "x")])] [] →
      msgs = runValidators [fun _ => some (str "x")] (dataGet [] (str "f"))
        (str "f")) :=
  validate_report_characterization _ _ (by simp) _ _ (List.mem_singleton.mpr rfl)

/-- C9: validate is a pure function of the rule set and the payload, the
external collaborators being embedded in the rule set itself, so a second
run on the same inputs with unchanged external state returns the identical
report. -/
theorem validate_deterministic (rules : ValidationRules) (data : FormData) :
    validate rules data = validate rules data := rfl

/-- replaceFirst substitutes at the first occurrence of the pattern and
copies everything after it verbatim: when no earlier position of the string
starts with the pattern, the prefix before the occurrence and the whole
suffix after it are untouched. -/
theorem replaceFirst_at_first (pat rep b : List Char) (hpat : pat ≠ [])
    (a : List Char)
    (hfirst : ∀ i, i < a.length →
      pat.isPrefixOf ((a ++ (pat ++ b)).drop i) = false) :
    replaceFirst pat rep (a ++ (pat ++ b)) = a ++ (rep ++ b) := by
  induction a with
  | nil =>
    rw [List.nil_append, List.nil_append]
    cases pat with
    | nil => exact absurd rfl hpat
    | cons p ps =>
      rw [List.cons_append]
      simp only [replaceFirst]
      rw [if_pos (List.isPrefixOf_iff_prefix.mpr ⟨b, List.cons_append p ps b⟩)]
      rw [← List.cons_append, List.drop_left]
  | cons c a ih =>
    rw [List.cons_append]
    simp only [replaceFirst]
    rw [if_neg ?hnp]
    case hnp =>
      have h0 := hfirst 0 (by simp)
      rw [List.drop_zero, List.cons_append] at h0
      simp [h0]
    rw [List.cons_append]
    congr 1
    exact ih (fun i hi => by
      have h := hfirst (i + 1) (by simpa using Nat.succ_lt_succ hi)
      rwa [List.cons_append, List.drop_succ_cons] at h)

/-- C10: when the message a validator returns contains the reserved token
more than once, validate substitutes the proper-cased field name only at the
first occurrence; every later occurrence of the token in the same message is
left in place. -/
theorem validate_substitutes_first_token_only
    (key a b : List Char) (data : FormData)
    (hfirst : ∀ i, i < a.length →
      fieldToken.isPrefixOf ((a ++ (fieldToken ++ b)).drop i) = false)
    (_hagain : jsIncludes fieldToken b = true) :
    validate [(key, [fun _ => some (a ++ (fieldToken ++ b))])] data =
      [(key, [a ++ (toProperCase key ++ b)])] := by
  have hrep : replaceFirst fieldToken (toProperCase key) (a ++ (fieldToken ++ b)) =
      a ++ (toProperCase key ++ b) :=
    replaceFirst_at_first _ _ _ (by decide) a hfirst
  have hne : a ++ (fieldToken ++ b) ≠ [] := by
    simp [fieldToken, str]
  simp [validate, runValidators, hne, hrep]

/-- Witness for the C10 substitution theorem: a message holding the token
twice keeps its second token verbatim while the first becomes the
proper-cased field name. -/
theorem validate_substitutes_first_token_only_witness :
    validate [(str "email",
        [fun _ => some ((str "The ") ++ (fieldToken ++ (str " and :field")))])] [] =
      [(str "email",
        [(str "The ") ++ (toProperCase (str "email") ++ (str " and :field"))])] :=
  validate_substitutes_first_token_only (str "email") (str "The ")
    (str " and :field") [] (by decide) (by decide)

/-- A value whose lower-cased form contains the word gamemaster trips the
blocked-phrase loop, whatever the public title appended to the list. -/
theorem blocked_words_gamemaster (publicTitle l : List Char)
    (h : jsIncludes (str "gamemaster") l = true) :
    (BLOCKED_WORDS publicTitle).any (fun w => jsIncludes w l) = true := by
  rw [List.any_eq_true]
  refine ⟨str "gamemaster", ?_, h⟩
  unfold BLOCKED_WORDS
  exact List.mem_cons_of_mem _ (List.mem_cons_of_mem _ (List.mem_cons_self _ _))

/-- C3 counterexample: with the identity locale lookup, the all-lower-case
input gamemaster is rejected by the earlier casing step with the title-case
message, which is not the blocked-content message. -/
theorem characterName_gamemaster_counterexample :
    characterNameValidator id (fun _ => 0) (str "Zz")
        (some (.vstr (str "gamemaster"))) = some (str "validations.title-case") ∧
      str "validations.title-case" ≠ str "validations.blocked-words" := by
  constructor
  · decide
  · decide

/-- C3 (amended): the inputs Gamemaster and GAMEMASTER fail the
character-name validator with the blocked-content message, while the
all-lower-case input gamemaster also fails, but at the earlier casing step
with the title-case message. -/
theorem characterName_blocklist_casing (tr : Tr) (monsterCount : List Char → Nat)
    (publicTitle : List Char) :
    characterNameValidator tr monsterCount publicTitle
        (some (.vstr (str "Gamemaster"))) =
      some (tr (str "validations.blocked-words")) ∧
    characterNameValidator tr monsterCount publicTitle
        (some (.vstr (str "GAMEMASTER"))) =
      some (tr (str "validations.blocked-words")) ∧
    characterNameValidator tr monsterCount publicTitle
        (some (.vstr (str "gamemaster"))) =
      some (tr (str "validations.title-case")) := by
  refine ⟨?_, ?_, ?_⟩
  · simp only [characterNameValidator]
    rw [if_neg (by decide), if_neg (by decide), if_neg (by decide),
      if_neg (by decide),
      if_pos (blocked_words_gamemaster publicTitle _ (by decide))]
  · simp only [characterNameValidator]
    rw [if_neg (by decide), if_neg (by decide), if_neg (by decide),
      if_neg (by decide),
      if_pos (blocked_words_gamemaster publicTitle _ (by decide))]
  · simp only [characterNameValidator]
    rw [if_neg (by decide), if_neg (by decide), if_pos (by decide)]

/-- C4 counterexample: the input ABC, of length three, passes the casing
step and indeed the whole character-name validator, yet it is not in
capitalized-word form as the spec words it, since the letters after the
first are not lower-cased. -/
theorem casing_step_counterexample :
    characterNameValidator id (fun _ => 0) (str "Zz")
        (some (.vstr (str "ABC"))) = none ∧
      specCapitalizedWordForm (str "ABC") = false := by
  constructor
  · decide
  · decide

/-- C4 (amended): for a string of length within three to twenty, the casing
step compares the value for exact equality against its own title-cased
transform, which upper-cases the first letter of each word and leaves the
remaining characters unchanged rather than lower-casing them: with the
identity locale lookup the validator returns the title-case message exactly
when the value differs from that transform, so all-upper-case words pass the
step although they are not in first-upper rest-lower form. -/
theorem casing_step_characterization (monsterCount : List Char → Nat)
    (publicTitle : List Char) (v : List Char)
    (h3 : 3 ≤ v.length) (h20 : v.length ≤ 20) :
    (characterNameValidator id monsterCount publicTitle (some (.vstr v)) =
        some (str "validations.title-case")) ↔ toTitleCase v ≠ v := by
  simp only [characterNameValidator]
  rw [if_neg (Nat.not_lt.mpr h3), if_neg (Nat.not_lt.mpr h20)]
  by_cases ht : toTitleCase v = v
  · rw [if_neg (by simp [ht])]
    constructor
    · intro h
      exfalso
      split_ifs at h <;> exact absurd h (by decide)
    · intro h
      exact absurd ht h
  · rw [if_pos (by simp [ht])]
    exact iff_of_true rfl ht

/-- Witness for the C4 characterization: gamemaster differs from its
title-cased transform and is rejected with the title-case message. -/
theorem casing_step_characterization_witness :
    characterNameValidator id (fun _ => 0) (str "Zz")
        (some (.vstr (str "gamemaster"))) = some (str "validations.title-case") :=
  (casing_step_characterization (fun _ => 0) (str "Zz") (str "gamemaster")
    (by decide) (by decide)).mpr (by decide)

/-- C6: the too-short input ad is rejected by the character-name validator
with the minimum-length message alone; the result is a single message and
does not depend on the monster-count collaborator or on any later step of
the policy. -/
theorem characterName_short_input (tr : Tr) (monsterCount : List Char → Nat)
    (publicTitle : List Char) :
    characterNameValidator tr monsterCount publicTitle (some (.vstr (str "ad"))) =
      some (tr (str "validations.min-length")) := by
  simp only [characterNameValidator]
  rw [if_pos (by decide)]

/-- C5: a candidate name that passes the local steps of the character-name
policy and matches an existing monster name case-insensitively is rejected
at the final uniqueness step with the name-collision message, and a
registration submission carrying such a character name performs no
persistence operation: the action fails at validation with an empty trace. -/
theorem characterName_monster_collision (tr : Tr) (publicTitle : List Char)
    (monsters : List (List Char)) (v m : List Char)
    (hm : m ∈ monsters)
    (hci : m.map Char.toLower = v.map Char.toLower)
    (hpass : passesLocalNameChecks publicTitle v = true)
    (htr : tr (str "validations.name-monster") ≠ []) :
    characterNameValidator tr (countMonstersByName monsters) publicTitle
        (some (.vstr v)) = some (tr (str "validations.name-monster")) ∧
    ∀ {σ π γ : Type} (deps : RegDeps σ π γ) (db : Db) (data : FormData),
      deps.tr = tr → deps.publicTitle = publicTitle → db.monsters = monsters →
      dataGet data (str "characterName") = some (.vstr v) →
      (registerAction deps db data).2 = [] := by
  have hcount : 0 < countMonstersByName monsters v := by
    have hmem2 : m ∈ monsters.filter
        (fun x => x.map Char.toLower == v.map Char.toLower) :=
      List.mem_filter.mpr ⟨hm, by simp [hci]⟩
    unfold countMonstersByName
    exact List.length_pos.mpr (List.ne_nil_of_mem hmem2)
  have hval : characterNameValidator tr (countMonstersByName monsters) publicTitle
      (some (.vstr v)) = some (tr (str "validations.name-monster")) := by
    simp only [characterNameValidator]
    split_ifs with hA hB hC hD hE hF hG
    · simp [passesLocalNameChecks, hA] at hpass
    · simp [passesLocalNameChecks, hB] at hpass
    · rw [Bool.not_eq_true'] at hC
      simp [passesLocalNameChecks, hC] at hpass
    · simp [passesLocalNameChecks, hD] at hpass
    · simp [passesLocalNameChecks, hE] at hpass
    · rw [Bool.not_eq_true'] at hF
      simp [passesLocalNameChecks, hF] at hpass
    · rw [Bool.not_eq_true'] at hG
      simp [passesLocalNameChecks, hG] at hpass
    · rfl
  refine ⟨hval, ?_⟩
  intro σ π γ deps db data hdtr hdpt hdm hname
  by_cases herr : validate (regRules deps.tr (countMonstersByName db.monsters)
      deps.publicTitle (dataGet data (str "password"))) data = []
  · exfalso
    have hmemr : (str "characterName",
        [presenceValidator deps.tr,
         characterNameValidator deps.tr (countMonstersByName db.monsters)
           deps.publicTitle]) ∈
        regRules deps.tr (countMonstersByName db.monsters) deps.publicTitle
          (dataGet data (str "password")) := by
      unfold regRules
      exact List.mem_cons_of_mem _ (List.mem_cons_of_mem _
        (List.mem_cons_of_mem _ (List.mem_cons_self _ _)))
    have hrun := validate_eq_nil_imp herr hmemr
    rw [hname] at hrun
    unfold runValidators at hrun
    rw [List.filterMap_eq_nil_iff] at hrun
    have hc := hrun _ (List.mem_cons_of_mem _ (List.mem_cons_self _ _))
    rw [hdtr, hdm, hdpt, hval] at hc
    have hc2 : (if tr (str "validations.name-monster") = []
        then (none : Option (List Char))
        else some (replaceFirst fieldToken (toProperCase (str "characterName"))
          (tr (str "validations.name-monster")))) = none := hc
    rw [if_neg htr] at hc2
    cases hc2
  · simp only [registerAction]
    rw [if_neg herr]

/-- Witness for the C5 collision theorem: the stored monster name rat blocks
the candidate character name Rat, and the corresponding registration
submission performs no persistence operation. -/
theorem characterName_monster_collision_witness :
    characterNameValidator id (countMonstersByName [str "rat"]) (str "Zz")
        (some (.vstr (str "Rat"))) = some (str "validations.name-monster") ∧
      (registerAction unitDeps ⟨[], [], [str "rat"]⟩
        [(str "characterName", .vstr (str "Rat"))]).2 = [] := by
  have h := characterName_monster_collision id (str "Zz") [str "rat"]
    (str "Rat") (str "rat") (by decide) (by decide) (by decide) (by decide)
  exact ⟨h.1, h.2 unitDeps ⟨[], [], [str "rat"]⟩
    [(str "characterName", .vstr (str "Rat"))] rfl rfl rfl (by decide)⟩

/-- C7: when the submitted password and its confirmation differ, the
registration action fails at validation with a client-error report that
lists the mismatch message under the confirmation field, and it performs no
persistence operation: no account lookup, no player lookup, and no
creation appears in its trace. -/
theorem register_password_mismatch {σ π γ : Type} (deps : RegDeps σ π γ)
    (db : Db) (data : FormData)
    (hne : formValueNeq (dataGet data (str "passwordConfirmation"))
      (dataGet data (str "password")) = true) :
    (registerAction deps db data).2 = [] ∧
    ∃ errs msgs, (registerAction deps db data).1 = .validationFailed errs ∧
      (str "passwordConfirmation", msgs) ∈ errs ∧ pwMismatchMsg ∈ msgs := by
  have hmem3 : (fun value => if formValueNeq value (dataGet data (str "password"))
      then some pwMismatchMsg else none) ∈
      [presenceValidator deps.tr, stringValidator deps.tr,
       fun value => if formValueNeq value (dataGet data (str "password"))
         then some pwMismatchMsg else none] :=
    List.mem_cons_of_mem _ (List.mem_cons_of_mem _ (List.mem_cons_self _ _))
  have hmm : pwMismatchMsg ∈ runValidators
      [presenceValidator deps.tr, stringValidator deps.tr,
       fun value => if formValueNeq value (dataGet data (str "password"))
         then some pwMismatchMsg else none]
      (dataGet data (str "passwordConfirmation")) (str "passwordConfirmation") := by
    unfold runValidators
    rw [List.mem_filterMap]
    refine ⟨_, hmem3, ?_⟩
    show (match (if formValueNeq (dataGet data (str "passwordConfirmation"))
        (dataGet data (str "password")) then some pwMismatchMsg else none) with
      | some e => if e = [] then none
                  else some (replaceFirst fieldToken
                    (toProperCase (str "passwordConfirmation")) e)
      | none => none) = some pwMismatchMsg
    rw [if_pos hne]
    decide
  have hmemPC : (str "passwordConfirmation",
      [presenceValidator deps.tr, stringValidator deps.tr,
       fun value => if formValueNeq value (dataGet data (str "password"))
         then some pwMismatchMsg else none]) ∈
      regRules deps.tr (countMonstersByName db.monsters) deps.publicTitle
        (dataGet data (str "password")) := by
    unfold regRules
    exact List.mem_cons_of_mem _ (List.mem_cons_of_mem _ (List.mem_cons_self _ _))
  have hrep : (str "passwordConfirmation",
      runValidators [presenceValidator deps.tr, stringValidator deps.tr,
        fun value => if formValueNeq value (dataGet data (str "password"))
          then some pwMismatchMsg else none]
        (dataGet data (str "passwordConfirmation")) (str "passwordConfirmation")) ∈
      validate (regRules deps.tr (countMonstersByName db.monsters) deps.publicTitle
        (dataGet data (str "password"))) data :=
    mem_validate_iff.mpr ⟨_, hmemPC, rfl, List.ne_nil_of_mem hmm⟩
  have herr : validate (regRules deps.tr (countMonstersByName db.monsters)
      deps.publicTitle (dataGet data (str "password"))) data ≠ [] :=
    List.ne_nil_of_mem hrep
  constructor
  · simp only [registerAction]
    rw [if_neg herr]
  · exact ⟨_, _, by simp only [registerAction]; rw [if_neg herr], hrep, hmm⟩

/-- Witness for the C7 mismatch theorem: a submission whose password is a
and whose confirmation is b fails with the mismatch message under the
confirmation field and an empty persistence trace. -/
theorem register_password_mismatch_witness :
    (registerAction unitDeps ⟨[], [], []⟩
      [(str "password", .vstr (str "a")),
       (str "passwordConfirmation", .vstr (str "b"))]).2 = [] ∧
    ∃ errs msgs, (registerAction unitDeps ⟨[], [], []⟩
        [(str "password", .vstr (str "a")),
         (str "passwordConfirmation", .vstr (str "b"))]).1 =
        .validationFailed errs ∧
      (str "passwordConfirmation", msgs) ∈ errs ∧ pwMismatchMsg ∈ msgs :=
  register_password_mismatch unitDeps ⟨[], [], []⟩
    [(str "password", .vstr (str "a")),
     (str "passwordConfirmation", .vstr (str "b"))] (by decide)

/-- The success path of the registration action: when validation passes, the
four required fields are present as non-empty strings, the lower-cased email
is not yet stored, and the character name is not yet stored, the action
reaches the atomic creation with the lower-cased email, the hashed password,
exactly one player row flagged as the main character, and a verification
expiry thirty days after the current clock reading. -/
theorem registerAction_success {σ π γ : Type} (deps : RegDeps σ π γ) (db : Db)
    (data : FormData) (e p n sx : List Char)
    (he : dataGet data (str "email") = some (.vstr e)) (he0 : e ≠ [])
    (hp : dataGet data (str "password") = some (.vstr p)) (hp0 : p ≠ [])
    (hn : dataGet data (str "characterName") = some (.vstr n)) (hn0 : n ≠ [])
    (hsx : dataGet data (str "characterSex") = some (.vstr sx)) (hsx0 : sx ≠ [])
    (hval : validate (regRules deps.tr (countMonstersByName db.monsters)
      deps.publicTitle (some (.vstr p))) data = [])
    (hem : e.map Char.toLower ∉ db.accounts)
    (hpl : n ∉ db.players) :
    registerAction deps db data =
      (.created
        { email := e.map Char.toLower
          password := deps.hashPassword p
          players := [(deps.generateCharacterInput n
            (deps.parsePlayerPronoun (dataGet data (str "characterPronouns")))
            (deps.parsePlayerSex sx), true)]
          emailVerificationExpires := deps.now + 1000 * 60 * 60 * 24 * 30 },
       [.findAccountByEmail (e.map Char.toLower), .findPlayerByName n,
        .createAccount]) := by
  simp only [registerAction, he, hp, hn, hsx]
  rw [if_pos hval]
  rw [if_neg (by push_neg; exact ⟨he0, hp0, hn0, hsx0⟩)]
  rw [if_neg hem, if_neg hpl]

/-- C2: a registration submission with a valid, unique email and character
name reaches the creation step and builds one account creation payload
holding exactly one character row marked as the main character and one
email-verification row whose expiry is thirty days, in milliseconds, after
the creation time. -/
theorem register_valid_submission_creates {σ π γ : Type} (deps : RegDeps σ π γ)
    (db : Db) (data : FormData) (e p n sx : List Char)
    (he : dataGet data (str "email") = some (.vstr e)) (he0 : e ≠ [])
    (hp : dataGet data (str "password") = some (.vstr p)) (hp0 : p ≠ [])
    (hn : dataGet data (str "characterName") = some (.vstr n)) (hn0 : n ≠ [])
    (hsx : dataGet data (str "characterSex") = some (.vstr sx)) (hsx0 : sx ≠ [])
    (hval : validate (regRules deps.tr (countMonstersByName db.monsters)
      deps.publicTitle (some (.vstr p))) data = [])
    (hem : e.map Char.toLower ∉ db.accounts)
    (hpl : n ∉ db.players) :
    registerAction deps db data =
      (.created
        { email := e.map Char.toLower
          password := deps.hashPassword p
          players := [(deps.generateCharacterInput n
            (deps.parsePlayerPronoun (dataGet data (str "characterPronouns")))
            (deps.parsePlayerSex sx), true)]
          emailVerificationExpires := deps.now + 1000 * 60 * 60 * 24 * 30 },
       [.findAccountByEmail (e.map Char.toLower), .findPlayerByName n,
        .createAccount]) :=
  registerAction_success deps db data e p n sx he he0 hp hp0 hn hn0 hsx hsx0
    hval hem hpl

/-- Witness for the C2 creation theorem on a concrete valid submission. -/
theorem register_valid_submission_creates_witness :
    registerAction unitDeps ⟨[], [], []⟩
        [(str "email", .vstr (str "User@Example.com")),
         (str "password", .vstr (str "secret")),
         (str "passwordConfirmation", .vstr (str "secret")),
         (str "characterName", .vstr (str "Gregory")),
         (str "characterSex", .vstr (str "male"))] =
      (.created
        { email := (str "User@Example.com").map Char.toLower
          password := unitDeps.hashPassword (str "secret")
          players := [(unitDeps.generateCharacterInput (str "Gregory")
            (unitDeps.parsePlayerPronoun (dataGet
              [(str "email", .vstr (str "User@Example.com")),
               (str "password", .vstr (str "secret")),
               (str "passwordConfirmation", .vstr (str "secret")),
               (str "characterName", .vstr (str "Gregory")),
               (str "characterSex", .vstr (str "male"))]
              (str "characterPronouns")))
            (unitDeps.parsePlayerSex (str "male")), true)]
          emailVerificationExpires := unitDeps.now + 1000 * 60 * 60 * 24 * 30 },
       [.findAccountByEmail ((str "User@Example.com").map Char.toLower),
        .findPlayerByName (str "Gregory"), .createAccount]) :=
  register_valid_submission_creates unitDeps ⟨[], [], []⟩ _
    (str "User@Example.com") (str "secret") (str "Gregory") (str "male")
    (by decide) (by decide) (by decide) (by decide) (by decide) (by decide)
    (by decide) (by decide) (by decide) (by decide) (by decide)

/-- C8: the registration action lower-cases the submitted email before the
uniqueness lookup and before creation: a first valid submission is persisted
under the lower-cased email, and a second valid submission whose email
differs only in letter case is rejected as an email collision, its single
lookup already querying the lower-cased form. -/
theorem register_email_case_collision {σ π γ : Type} (deps : RegDeps σ π γ)
    (db : Db) (data1 data2 : FormData)
    (e1 p1 n1 sx1 e2 p2 n2 sx2 : List Char)
    (he1 : dataGet data1 (str "email") = some (.vstr e1)) (he10 : e1 ≠ [])
    (hp1 : dataGet data1 (str "password") = some (.vstr p1)) (hp10 : p1 ≠ [])
    (hn1 : dataGet data1 (str "characterName") = some (.vstr n1)) (hn10 : n1 ≠ [])
    (hsx1 : dataGet data1 (str "characterSex") = some (.vstr sx1)) (hsx10 : sx1 ≠ [])
    (hval1 : validate (regRules deps.tr (countMonstersByName db.monsters)
      deps.publicTitle (some (.vstr p1))) data1 = [])
    (hem1 : e1.map Char.toLower ∉ db.accounts) (hpl1 : n1 ∉ db.players)
    (he2 : dataGet data2 (str "email") = some (.vstr e2)) (he20 : e2 ≠ [])
    (hp2 : dataGet data2 (str "password") = some (.vstr p2)) (hp20 : p2 ≠ [])
    (hn2 : dataGet data2 (str "characterName") = some (.vstr n2)) (hn20 : n2 ≠ [])
    (hsx2 : dataGet data2 (str "characterSex") = some (.vstr sx2)) (hsx20 : sx2 ≠ [])
    (hval2 : validate (regRules deps.tr (countMonstersByName db.monsters)
      deps.publicTitle (some (.vstr p2))) data2 = [])
    (hcase : e2.map Char.toLower = e1.map Char.toLower) :
    (∃ d, (registerAction deps db data1).1 = .created d ∧
      d.email = e1.map Char.toLower) ∧
    registerAction deps
        { db with accounts := e1.map Char.toLower :: db.accounts } data2 =
      (.emailTaken, [.findAccountByEmail (e2.map Char.toLower)]) := by
  constructor
  · exact ⟨_, by
      rw [registerAction_success deps db data1 e1 p1 n1 sx1 he1 he10 hp1 hp10
        hn1 hn10 hsx1 hsx10 hval1 hem1 hpl1], rfl⟩
  · simp only [registerAction, he2, hp2, hn2, hsx2]
    rw [if_pos hval2]
    rw [if_neg (by push_neg; exact ⟨he20, hp20, hn20, hsx20⟩)]
    rw [if_pos (by rw [hcase]; exact List.mem_cons_self _ _)]

/-- Witness for the C8 collision theorem: a first submission under a
mixed-case email followed by a second one under another casing of the same
address, which is rejected as an email collision. -/
theorem register_email_case_collision_witness :
    (∃ d, (registerAction unitDeps ⟨[], [], []⟩
        [(str "email", .vstr (str "User@Example.com")),
         (str "password", .vstr (str "pw")),
         (str "passwordConfirmation", .vstr (str "pw")),
         (str "characterName", .vstr (str "Delia")),
         (str "characterSex", .vstr (str "female"))]).1 = .created d ∧
      d.email = (str "User@Example.com").map Char.toLower) ∧
    registerAction unitDeps
        ⟨(str "User@Example.com").map Char.toLower :: [], [], []⟩
        [(str "email", .vstr (str "USER@example.com")),
         (str "password", .vstr (str "pw2")),
         (str "passwordConfirmation", .vstr (str "pw2")),
         (str "characterName", .vstr (str "Delia")),
         (str "characterSex", .vstr (str "female"))] =
      (.emailTaken,
       [.findAccountByEmail ((str "USER@example.com").map Char.toLower)]) :=
  register_email_case_collision unitDeps ⟨[], [], []⟩ _ _
    (str "User@Example.com") (str "pw") (str "Delia") (str "female")
    (str "USER@example.com") (str "pw2") (str "Delia") (str "female")
    (by decide) (by decide) (by decide) (by decide) (by decide) (by decide)
    (by decide) (by decide) (by decide) (by decide) (by decide)
    (by decide) (by decide) (by decide) (by decide) (by decide)
    (by decide) (by decide) (by decide) (by decide) (by decide)
